import Mathlib

/-!
Shallow embedding of the WGAN-GP trainer in `keras_gan/wgan_gp.py`.

Modelling conventions:
* NumPy arrays are nested rational-valued arrays (`NDArray`); real-valued
  loss computations that involve a square root are embedded over `ℝ`.
* The Keras backend, the two networks and the optimizer are external
  collaborators: they are abstracted by a `Backend` structure whose fields
  are arbitrary functions (forward pass, optimizer update, loss values).
  Architecture descriptors and weight blobs are abstract types `Arch`, `W`.
* `np.random` is modelled as an oracle stream (`Rng`): a function giving the
  successive draws together with a position that advances with each draw, so
  each sampling call consumes fresh entries.  Distributional statements
  (uniform, normal, independent) are properties of the oracle and are not
  re-proved here.
* Fallible library calls (broadcasting, `np.random.randint` with an empty
  range, feeding a compiled graph an input of the wrong shape) return
  `Option`, with `none` for a raised exception.
-/

namespace WganGp

/-! ## NumPy-style arrays and the dataset preprocessing in `WGANGP.train` -/

/-- Nested rational-valued array standing for a NumPy ndarray. -/
inductive NDArray where
  | scalar (x : ℚ)
  | arr (xs : List NDArray)

mutual

/-- Elementwise rescaling `(x - 127.5) / 127.5` from `WGANGP.train`
(`wgan_gp.py` line 464). -/
def rescale : NDArray → NDArray
  | .scalar x => .scalar ((x - 127.5) / 127.5)
  | .arr xs => .arr (rescaleList xs)

/-- Elementwise rescaling mapped over a list of subarrays. -/
def rescaleList : List NDArray → List NDArray
  | [] => []
  | x :: xs => rescale x :: rescaleList xs

end

mutual

/-- Embedding of `np.expand_dims(a, axis)` (`wgan_gp.py` line 465 uses
`axis=3`): insert a new axis of extent 1 at the given position; `none` when
the axis is beyond the array's depth (NumPy raises). -/
def expand_dims : NDArray → Nat → Option NDArray
  | a, 0 => some (NDArray.arr [a])
  | NDArray.arr xs, axis + 1 => (expandList xs axis).map NDArray.arr
  | NDArray.scalar _, _ + 1 => none

/-- Embedding of `np.expand_dims` mapped over the subarrays of one axis. -/
def expandList : List NDArray → Nat → Option (List NDArray)
  | [], _ => some []
  | x :: xs, axis => do
      let y ← expand_dims x axis
      let ys ← expandList xs axis
      pure (y :: ys)

end

/-- Decides whether an array is rectangular with the given shape. -/
def hasShape : List Nat → NDArray → Bool
  | [], NDArray.scalar _ => true
  | n :: dims, NDArray.arr xs => xs.length == n && xs.all (hasShape dims)
  | _, _ => false

/-- Decides whether an array is rectangular with the given shape and all its
entries lie in the closed interval from `lo` to `hi`. -/
def allIn (lo hi : ℚ) : List Nat → NDArray → Bool
  | [], NDArray.scalar x => decide (lo ≤ x) && decide (x ≤ hi)
  | n :: dims, NDArray.arr xs => xs.length == n && xs.all (allIn lo hi dims)
  | _, _ => false

/-- Insertion of a value at a position of a shape (the shape effect of
`np.expand_dims`). -/
def insertAt : Nat → Nat → List Nat → List Nat
  | 0, v, s => v :: s
  | _ + 1, _, [] => []
  | k + 1, v, d :: s => d :: insertAt k v s

/-- Dataset preprocessing performed at the top of `WGANGP.train`
(`wgan_gp.py` lines 460-465): rescale the 0-255 pixel values to the range
-1 to 1, then `np.expand_dims(..., axis=3)` unconditionally. -/
def preprocess (x : NDArray) : Option NDArray :=
  expand_dims (rescale x) 3

/-- Rows (samples) of a batch array; the training loop indexes the first
axis of `x_train`. -/
def NDArray.toRows : NDArray → List NDArray
  | .scalar x => [.scalar x]
  | .arr xs => xs

/-! ## `RandomWeightedAverage._merge_function` (`wgan_gp.py` lines 26-30) -/

/-- Broadcast product of a vector of per-sample coefficients against a batch
of (flattened) images, following NumPy/Keras leading-dimension broadcasting:
the batch must either match the coefficient count or consist of a single
sample that is stretched; any other combination raises (`none`). -/
def broadcastScale (alpha : List ℚ) (batch : List (List ℚ)) :
    Option (List (List ℚ)) :=
  if batch.length = alpha.length then
    some (List.zipWith (fun a img => img.map (fun v => a * v)) alpha batch)
  else
    match batch with
    | [img] => some (alpha.map (fun a => img.map (fun v => a * v)))
    | _ => none

/-- Embedding of `RandomWeightedAverage._merge_function`: computes
`alpha * inputs[0] + (1 - alpha) * inputs[1]` for a given coefficient
vector. -/
def mergeFunction (alpha : List ℚ) (real fake : List (List ℚ)) :
    Option (List (List ℚ)) := do
  let xs ← broadcastScale alpha real
  let ys ← broadcastScale (alpha.map (fun a => 1 - a)) fake
  pure (List.zipWith (List.zipWith (· + ·)) xs ys)

/-- The merge as executed by the layer: the coefficient vector is
`K.random_uniform((32, 1, 1, 1))`, a hardcoded batch of 32 draws from the
uniform oracle `u`, independent of the incoming batch size. -/
def randomWeightedAverage (u : Nat → ℚ) (real fake : List (List ℚ)) :
    Option (List (List ℚ)) :=
  mergeFunction ((List.range 32).map u) real fake

/-! ## Loss functions (`wgan_gp.py` lines 33-52) over `ℝ`

Per-sample gradients of the critic output with respect to the interpolated
input are supplied by the autodiff engine; the embedding takes them as a
list (one flattened gradient per sample), matching `K.sum` over all
non-batch axes. -/

/-- `K.mean` of a flat tensor. -/
noncomputable def kMean (xs : List ℝ) : ℝ := xs.sum / xs.length

/-- Embedding of `wasserstein_loss(y_true, y_pred) = K.mean(y_true * y_pred)`. -/
noncomputable def wasserstein_loss (y_true y_pred : List ℝ) : ℝ :=
  kMean (List.zipWith (· * ·) y_true y_pred)

/-- Embedding of `gradient_penalty_loss`: square the per-sample gradients,
sum over all non-batch axes, take the square root, penalize `(1 - norm)^2`
per sample, and return the batch mean. -/
noncomputable def gradient_penalty_loss (gradients : List (List ℝ)) : ℝ :=
  let gradients_sqr := gradients.map (fun g => g.map (fun x => x ^ 2))
  let gradients_sqr_sum := gradients_sqr.map (fun g => g.sum)
  let gradient_l2_norm := gradients_sqr_sum.map Real.sqrt
  let gradient_penalty := gradient_l2_norm.map (fun n => (1 - n) ^ 2)
  kMean gradient_penalty

/-- Composite objective of the compiled critic graph: the critic graph has
outputs `[critic(real), critic(fake), critic(interpolated)]`, is compiled
with `loss=[wasserstein_loss, wasserstein_loss, partial_gp_loss]` and
`loss_weights=[1, 1, 10]` (`wgan_gp.py` lines 248-251), and is trained
against the targets `[valid, fake, dummy] = [-1s, +1s, 0s]` built in
`train_discriminator` (lines 424-427).  `interpGrads` are the gradients of
the interpolated-sample critic output used by the gradient-penalty term. -/
noncomputable def criticGraphLoss (batch_size : Nat)
    (realScores fakeScores : List ℝ) (interpGrads : List (List ℝ)) : ℝ :=
  let valid : List ℝ := List.replicate batch_size (-1)
  let fake : List ℝ := List.replicate batch_size 1
  1 * wasserstein_loss valid realScores
    + 1 * wasserstein_loss fake fakeScores
    + 10 * gradient_penalty_loss interpGrads

/-- Composite objective of the compiled generator graph: a single output
`critic(generator(noise))` with `wasserstein_loss` (line 270), trained
against the target `valid = -1s` built in `train_generator` (line 453). -/
noncomputable def generatorGraphLoss (batch_size : Nat)
    (fakeScores : List ℝ) : ℝ :=
  wasserstein_loss (List.replicate batch_size (-1)) fakeScores

/-! ## Graph wiring and trainability (`wgan_gp.py` lines 215-271) -/

/-- The two networks owned by the trainer. -/
inductive Net where
  | generator
  | critic
deriving DecidableEq

/-- Keras `trainable` flags of the two model instances; both are `True` on
construction. -/
structure Flags where
  generator_trainable : Bool
  critic_trainable : Bool
deriving DecidableEq

/-- Nets whose `trainable` flag is set, as collected by Keras when a model
is compiled. -/
def trainableOf (f : Flags) : List Net :=
  (if f.generator_trainable then [Net.generator] else [])
    ++ (if f.critic_trainable then [Net.critic] else [])

/-- A compiled Keras graph: the set of nets whose parameters the optimizer
may update (captured from the `trainable` flags at compile time) and the
length of the noise `Input` placeholder. -/
structure CompiledGraph where
  trainableNets : List Net
  noiseInputDim : Nat
deriving DecidableEq

/-- Embedding of `WGANGP.build_critic_graph`: sets
`self.generator.trainable = False`, wires inputs `[real_img, z_disc]` with
`z_disc = Input(shape=(100,))` hardcoded (line 230), and compiles.  Returns
the updated flags and the compiled graph. -/
def build_critic_graph (f : Flags) : Flags × CompiledGraph :=
  let f1 : Flags := { f with generator_trainable := false }
  (f1, { trainableNets := trainableOf f1, noiseInputDim := 100 })

/-- Embedding of `WGANGP.build_generator_graph`: sets
`self.critic.trainable = False` and `self.generator.trainable = True`,
wires `z_gen = Input(shape=(self.latent_dim,))` (line 263), and compiles. -/
def build_generator_graph (f : Flags) (latent_dim : Nat) :
    Flags × CompiledGraph :=
  let f1 : Flags := { f with critic_trainable := false,
                             generator_trainable := true }
  (f1, { trainableNets := trainableOf f1, noiseInputDim := latent_dim })

/-- Embedding of `WGANGP.build_computational_graphs`: builds the critic
graph and then the generator graph, threading the shared trainable flags. -/
def build_computational_graphs (f : Flags) (latent_dim : Nat) :
    Flags × CompiledGraph × CompiledGraph :=
  let (f1, critic_graph) := build_critic_graph f
  let (f2, generator_graph) := build_generator_graph f1 latent_dim
  (f2, critic_graph, generator_graph)

/-! ## Trainer state -/

/-- State of a `WGANGP` trainer.  `Arch` is the type of architecture
descriptors (`model.to_json()`) and `W` the type of weight blobs; both
belong to the external network collaborators. -/
structure WGANGP (Arch W : Type) where
  img_shape : List Nat
  channels : Nat
  latent_dim : Nat
  n_critic : Nat
  dataset : NDArray
  model_name : String
  model_dir : String
  epoch : Nat
  generatorArch : Arch
  generatorWeights : W
  criticArch : Arch
  criticWeights : W
  criticGraph : CompiledGraph
  generatorGraph : CompiledGraph

/-- External collaborators: network builders, forward evaluation, the
optimizer's weight update, the numeric loss values reported by
`train_on_batch`, and the dataset loader.  All are arbitrary functions. -/
structure Backend (Arch W : Type) where
  buildGenerator : Nat → Arch × W
  buildCritic : List Nat → Arch × W
  predict : Arch → W → List (List ℚ) → List NDArray
  update : Net → WGANGP Arch W → List NDArray → List (List ℚ) →
      List (List ℚ) → W
  dLossVec : WGANGP Arch W → List NDArray → List (List ℚ) →
      List (List ℚ) → List ℚ
  gLoss : WGANGP Arch W → List (List ℚ) → List (List ℚ) → ℚ
  load_data : NDArray

/-- Embedding of `WGANGP.__init__`: store the hyperparameters, set
`self.epoch = 0`, build the generator and the critic, and build both
computational graphs (both `trainable` flags start `True`). -/
def WGANGP.init {Arch W : Type} (B : Backend Arch W) (img_shape : List Nat)
    (latent_dim n_critic : Nat) (dataset : NDArray)
    (model_name model_dir : String) : WGANGP Arch W :=
  let (ga, gw) := B.buildGenerator latent_dim
  let (ca, cw) := B.buildCritic img_shape
  let f0 : Flags := { generator_trainable := true, critic_trainable := true }
  let (_, critic_graph, generator_graph) :=
    build_computational_graphs f0 latent_dim
  { img_shape := img_shape
    channels := img_shape.getLastD 0
    latent_dim := latent_dim
    n_critic := n_critic
    dataset := dataset
    model_name := model_name
    model_dir := model_dir
    epoch := 0
    generatorArch := ga
    generatorWeights := gw
    criticArch := ca
    criticWeights := cw
    criticGraph := critic_graph
    generatorGraph := generator_graph }

/-- `WGANGP()` with the default constructor arguments
(`img_shape=[28, 28, 1]`, `latent_dim=100`, `n_critic=5`, `dataset=mnist`,
`model_name='wgan_mnist'`, `model_dir='models'`). -/
def WGANGP.initDefault {Arch W : Type} (B : Backend Arch W) : WGANGP Arch W :=
  WGANGP.init B [28, 28, 1] 100 5 B.load_data "wgan_mnist" "models"

/-! ## Randomness -/

/-- Oracle for `np.random`: `normals` supplies the `np.random.normal`
stream, `ints` the `np.random.randint` stream; `pos` is the stream position
and advances with every draw, so successive draws are fresh. -/
structure Rng where
  normals : Nat → ℚ
  ints : Nat → Nat
  pos : Nat

/-- Embedding of `np.random.randint(0, hi, size)`: `size` fresh draws, each
reduced into the range below `hi`; raises (`none`) when the range is empty. -/
def Rng.randint (r : Rng) (hi size : Nat) : Option (List Nat × Rng) :=
  if hi = 0 then none
  else some (((List.range size).map (fun i => r.ints (r.pos + i) % hi)),
             { r with pos := r.pos + size })

/-- Embedding of `WGANGP.generate_noise`:
`np.random.normal(0, 1, (batch_size, self.latent_dim))`. -/
def WGANGP.generate_noise {Arch W : Type} (gan : WGANGP Arch W)
    (batch_size : Nat) (r : Rng) : List (List ℚ) × Rng :=
  (((List.range batch_size).map (fun i =>
      (List.range gan.latent_dim).map (fun j =>
        r.normals (r.pos + i * gan.latent_dim + j)))),
   { r with pos := r.pos + batch_size * gan.latent_dim })

/-- Forward pass `self.generator.predict_on_batch(noise)`. -/
def WGANGP.predict_on_batch {Arch W : Type} (B : Backend Arch W)
    (gan : WGANGP Arch W) (noise : List (List ℚ)) : List NDArray :=
  B.predict gan.generatorArch gan.generatorWeights noise

/-- Embedding of `WGANGP.generate_batch`: draw a noise batch and run the
generator on it. -/
def WGANGP.generate_batch {Arch W : Type} (B : Backend Arch W)
    (gan : WGANGP Arch W) (batch_size : Nat) (r : Rng) :
    List NDArray × Rng :=
  let (noise, r1) := gan.generate_noise batch_size r
  (gan.predict_on_batch B noise, r1)

/-! ## Training steps -/

/-- Trace events recorded by the embedded training loop: the loop variable
assignment `for self.epoch in ...`, each `train_on_batch` on the critic
graph (with the sampled dataset indices and the noise batch), each
`train_on_batch` on the generator graph, and each `sample_images` call. -/
inductive Event where
  | epochRun (epoch : Nat)
  | criticStep (idx : List Nat) (noise : List (List ℚ))
  | generatorStep (noise : List (List ℚ))
  | sample (epoch : Nat)
deriving DecidableEq

/-- Classification of an event. -/
inductive EventKind where
  | epochK
  | criticK
  | genK
  | sampleK
deriving DecidableEq

/-- Kind of an event. -/
def Event.kind : Event → EventKind
  | .epochRun _ => .epochK
  | .criticStep _ _ => .criticK
  | .generatorStep _ => .genK
  | .sample _ => .sampleK

/-- Test for an optimizer step (a `train_on_batch` call on either compiled
graph). -/
def Event.isOptStep : Event → Bool
  | .criticStep _ _ => true
  | .generatorStep _ => true
  | _ => false

/-- Epoch number of an `epochRun` event. -/
def Event.epochRunNum : Event → Option Nat
  | .epochRun e => some e
  | _ => none

/-- One `train_on_batch` call on a compiled graph: Keras checks the fed
noise batch against the graph's noise `Input` length (raising on a
mismatch), then lets the optimizer update exactly the parameters whose nets
were trainable when the graph was compiled. -/
def graphTrainOnBatch {Arch W : Type} (B : Backend Arch W)
    (g : CompiledGraph) (gan : WGANGP Arch W) (imgs : List NDArray)
    (noise : List (List ℚ)) (targets : List (List ℚ)) :
    Option (WGANGP Arch W) :=
  if noise.all (fun row => row.length == g.noiseInputDim) then
    some { gan with
      generatorWeights :=
        if Net.generator ∈ g.trainableNets then
          B.update Net.generator gan imgs noise targets
        else gan.generatorWeights
      criticWeights :=
        if Net.critic ∈ g.trainableNets then
          B.update Net.critic gan imgs noise targets
        else gan.criticWeights }
  else none

/-- The `for _ in range(self.n_critic)` loop body of
`WGANGP.train_discriminator` (lines 429-442), iterated `k` times: select a
random batch of images, sample generator input, train the critic graph, and
append the returned loss. -/
def discLoop {Arch W : Type} (B : Backend Arch W) (x_train : List NDArray)
    (batch_size : Nat) (targets : List (List ℚ)) :
    Nat → WGANGP Arch W → Rng →
    Option (WGANGP Arch W × Rng × List (List ℚ) × List Event)
  | 0, gan, r => some (gan, r, [], [])
  | k + 1, gan, r => do
      let (idx, r1) ← r.randint x_train.length batch_size
      let imgs := idx.map (fun i => x_train.getD i (NDArray.scalar 0))
      let (noise, r2) := gan.generate_noise batch_size r1
      let gan1 ← graphTrainOnBatch B gan.criticGraph gan imgs noise targets
      let d_loss := B.dLossVec gan imgs noise targets
      let (ganF, rF, losses, evs) ← discLoop B x_train batch_size targets k gan1 r2
      pure (ganF, rF, d_loss :: losses, Event.criticStep idx noise :: evs)

/-- Embedding of `WGANGP.train_discriminator` (lines 422-444): build the
adversarial ground truths `fake = +1s`, `dummy = 0s`, `valid = -1s` of
shape `(batch_size, 1)` and run the critic loop `n_critic` times, returning
the collected `d_losses`. -/
def WGANGP.train_discriminator {Arch W : Type} (B : Backend Arch W)
    (gan : WGANGP Arch W) (x_train : List NDArray) (batch_size : Nat)
    (r : Rng) :
    Option (WGANGP Arch W × Rng × List (List ℚ) × List Event) :=
  let fake : List ℚ := List.replicate batch_size 1
  let dummy : List ℚ := List.replicate batch_size 0
  let valid : List ℚ := List.replicate batch_size (-1)
  discLoop B x_train batch_size [valid, fake, dummy] gan.n_critic gan r

/-- Embedding of `WGANGP.train_generator` (lines 446-456): one
`train_on_batch` on the generator graph against the target `valid = -1s`. -/
def WGANGP.train_generator {Arch W : Type} (B : Backend Arch W)
    (gan : WGANGP Arch W) (batch_size : Nat) (r : Rng) :
    Option (WGANGP Arch W × Rng × ℚ × Event) := do
  let valid : List ℚ := List.replicate batch_size (-1)
  let (noise, r1) := gan.generate_noise batch_size r
  let gan1 ← graphTrainOnBatch B gan.generatorGraph gan [] noise [valid]
  pure (gan1, r1, B.gLoss gan noise [valid], Event.generatorStep noise)

/-- Embedding of `WGANGP.sample_images` (lines 479-499): generates a 5x5
batch of preview images with the current generator (consuming noise draws)
and writes a figure; the write itself is an external side effect. -/
def WGANGP.sample_images {Arch W : Type} (B : Backend Arch W)
    (gan : WGANGP Arch W) (r : Rng) : List NDArray × Rng :=
  gan.generate_batch B (5 * 5) r

/-- One iteration of the `for self.epoch in range(self.epoch + 1,
self.epoch + epochs + 1)` loop (lines 467-477): the loop variable sets
`self.epoch` to the next value, the critic is trained `n_critic` times,
the generator once, and `sample_images` runs when `sample_interval` is
nonzero and divides the current epoch. -/
def WGANGP.trainEpoch {Arch W : Type} (B : Backend Arch W)
    (gan : WGANGP Arch W) (x_train : List NDArray)
    (batch_size sample_interval : Nat) (r : Rng) :
    Option (WGANGP Arch W × Rng × List (List ℚ) × List Event) := do
  let gan0 : WGANGP Arch W := { gan with epoch := gan.epoch + 1 }
  let (gan1, r1, d_losses, evsD) ←
    gan0.train_discriminator B x_train batch_size r
  let (gan2, r2, _g_loss, evG) ← gan1.train_generator B batch_size r1
  if sample_interval ≠ 0 ∧ gan2.epoch % sample_interval = 0 then
    let (_, r3) := gan2.sample_images B r2
    pure (gan2, r3, d_losses,
      (Event.epochRun gan0.epoch :: evsD) ++ [evG, Event.sample gan2.epoch])
  else
    pure (gan2, r2, d_losses, (Event.epochRun gan0.epoch :: evsD) ++ [evG])

/-- The epoch loop of `WGANGP.train`, iterated over the remaining epoch
count. -/
def trainLoop {Arch W : Type} (B : Backend Arch W) (x_train : List NDArray)
    (batch_size sample_interval : Nat) :
    Nat → WGANGP Arch W → Rng → Option (WGANGP Arch W × Rng × List Event)
  | 0, gan, r => some (gan, r, [])
  | epochs + 1, gan, r => do
      let (gan1, r1, _d_losses, evs) ←
        gan.trainEpoch B x_train batch_size sample_interval r
      let (ganF, rF, evsRest) ←
        trainLoop B x_train batch_size sample_interval epochs gan1 r1
      pure (ganF, rF, evs ++ evsRest)

/-- Embedding of `WGANGP.train` (lines 458-477): load the training images
from the dataset collaborator, rescale them to -1..1, `np.expand_dims` on
axis 3, then run the epoch loop. -/
def WGANGP.train {Arch W : Type} (B : Backend Arch W) (gan : WGANGP Arch W)
    (epochs batch_size sample_interval : Nat) (r : Rng) :
    Option (WGANGP Arch W × Rng × List Event) := do
  let x ← preprocess gan.dataset
  trainLoop B x.toRows batch_size sample_interval epochs gan r

/-! ## Persistence (`wgan_gp.py` lines 273-400) -/

/-- The metadata record written by `get_config`/`save_config` and consumed
by `set_config`. -/
structure Config where
  channels : Nat
  img_shape : List Nat
  latent_dim : Nat
  n_critic : Nat
  epoch : Nat
  generator_path : String
  generator_json_path : String
  critic_path : String
  critic_json_path : String
  config_path : String
deriving DecidableEq

/-- Path of the metadata file (`get_config_path`, no suffix). -/
def WGANGP.get_config_path {Arch W : Type} (gan : WGANGP Arch W) : String :=
  gan.model_dir ++ "/" ++ gan.model_name ++ "_config.json"

/-- Path of a generator file (`get_generator_path`, no suffix). -/
def WGANGP.get_generator_path {Arch W : Type} (gan : WGANGP Arch W)
    (file_format : String) : String :=
  gan.model_dir ++ "/" ++ gan.model_name ++ "_generator." ++ file_format

/-- Path of a critic file (`get_critic_path`, no suffix). -/
def WGANGP.get_critic_path {Arch W : Type} (gan : WGANGP Arch W)
    (file_format : String) : String :=
  gan.model_dir ++ "/" ++ gan.model_name ++ "_critic." ++ file_format

/-- Embedding of `WGANGP.get_config`. -/
def WGANGP.get_config {Arch W : Type} (gan : WGANGP Arch W) : Config :=
  { channels := gan.channels
    img_shape := gan.img_shape
    latent_dim := gan.latent_dim
    n_critic := gan.n_critic
    epoch := gan.epoch
    generator_path := gan.get_generator_path "hdf5"
    generator_json_path := gan.get_generator_path "json"
    critic_path := gan.get_critic_path "hdf5"
    critic_json_path := gan.get_critic_path "json"
    config_path := gan.get_config_path }

/-- Embedding of `WGANGP.set_config`: restore exactly the five stored
fields. -/
def WGANGP.set_config {Arch W : Type} (gan : WGANGP Arch W) (c : Config) :
    WGANGP Arch W :=
  { gan with
    channels := c.channels
    img_shape := c.img_shape
    latent_dim := c.latent_dim
    n_critic := c.n_critic
    epoch := c.epoch }

/-- On-disk projection written by `save()`: the metadata file plus, for
each network, the architecture json and the weight file.  File contents are
modelled directly; Keras weight serialization round-trips weights
bit-exactly. -/
structure Checkpoint (Arch W : Type) where
  config : Config
  generator_json : Arch
  generator_weights : W
  critic_json : Arch
  critic_weights : W

/-- Embedding of `WGANGP.save`: `save_config` then `save_model`
(`save_generator` and `save_critic`). -/
def WGANGP.save {Arch W : Type} (gan : WGANGP Arch W) : Checkpoint Arch W :=
  { config := gan.get_config
    generator_json := gan.generatorArch
    generator_weights := gan.generatorWeights
    critic_json := gan.criticArch
    critic_weights := gan.criticWeights }

/-- Embedding of `WGANGP.load_config`: read the metadata file and
`set_config`. -/
def WGANGP.load_config {Arch W : Type} (gan : WGANGP Arch W) (c : Config) :
    WGANGP Arch W :=
  gan.set_config c

/-- Embedding of `WGANGP.load_generator`: `model_from_json` then
`load_weights`. -/
def WGANGP.load_generator {Arch W : Type} (gan : WGANGP Arch W) (arch : Arch)
    (w : W) : WGANGP Arch W :=
  { gan with generatorArch := arch, generatorWeights := w }

/-- Embedding of `WGANGP.load_critic`: `model_from_json` then
`load_weights`. -/
def WGANGP.load_critic {Arch W : Type} (gan : WGANGP Arch W) (arch : Arch)
    (w : W) : WGANGP Arch W :=
  { gan with criticArch := arch, criticWeights := w }

/-- Embedding of `WGANGP.load_model`: load the generator, then the critic. -/
def WGANGP.load_model {Arch W : Type} (gan : WGANGP Arch W) (ga : Arch)
    (gw : W) (ca : Arch) (cw : W) : WGANGP Arch W :=
  (gan.load_generator ga gw).load_critic ca cw

/-- Embedding of the static `WGANGP.load` (lines 391-400): construct
`WGANGP()` with the default arguments, `load_config` from the stored
metadata, then `load_model` from the stored architecture and weight
files. -/
def WGANGP.load {Arch W : Type} (B : Backend Arch W)
    (cp : Checkpoint Arch W) : WGANGP Arch W :=
  ((WGANGP.initDefault B).load_config cp.config).load_model
    cp.generator_json cp.generator_weights cp.critic_json cp.critic_weights

/-! ## Concrete instances used by the closed witness statements -/

/-- Concrete backend over `Arch = Nat`, `W = Nat` with constant collaborator
functions and a single-image 1x1x1 dataset. -/
def trivialBackend : Backend Nat Nat :=
  { buildGenerator := fun _ => (0, 0)
    buildCritic := fun _ => (0, 0)
    predict := fun _ _ _ => []
    update := fun _ _ _ _ _ => 0
    dLossVec := fun _ _ _ _ => []
    gLoss := fun _ _ _ => 0
    load_data := NDArray.arr [NDArray.arr [NDArray.arr [NDArray.scalar 0]]] }

/-- Concrete randomness oracle. -/
def rng0 : Rng :=
  { normals := fun _ => 0, ints := fun _ => 0, pos := 0 }

/-- Concrete default trainer over the trivial backend. -/
def gan0 : WGANGP Nat Nat := WGANGP.initDefault trivialBackend

/-- Concrete 4D dataset array of shape `(1, 1, 1, 1)` with a pixel value in
the 0-255 range. -/
def ds4 : NDArray :=
  .arr [.arr [.arr [.arr [.scalar 51]]]]

/-- Concrete 3D dataset array of shape `(1, 1, 2)` with pixel values in the
0-255 range. -/
def ds3w : NDArray :=
  .arr [.arr [.arr [.scalar 0, .scalar 255]]]

/-- Events of one epoch of the trivial-backend run with batch size 0 and no
sampling. -/
def evs1 : List Event :=
  [.epochRun 1, .criticStep [] [], .criticStep [] [], .criticStep [] [],
   .criticStep [] [], .criticStep [] [], .generatorStep []]

/-- Events of the second epoch of the trivial-backend run with batch size 0
and no sampling. -/
def evs2 : List Event :=
  [.epochRun 2, .criticStep [] [], .criticStep [] [], .criticStep [] [],
   .criticStep [] [], .criticStep [] [], .generatorStep []]

/-- Events of one epoch of the trivial-backend run with batch size 0 and
`sample_interval = 1`. -/
def evs6 : List Event :=
  [.epochRun 1, .criticStep [] [], .criticStep [] [], .criticStep [] [],
   .criticStep [] [], .criticStep [] [], .generatorStep [], .sample 1]

/-- Concrete trainer constructed with `latent_dim = 5`. -/
def gan5 : WGANGP Nat Nat :=
  WGANGP.init trivialBackend [28, 28, 1] 5 5 trivialBackend.load_data
    "wgan_mnist" "models"

/-! # Theorems -/

/-! ## Helper lemmas about the array model -/

/-- The mapped form of `rescaleList`. -/
theorem rescaleList_eq_map (xs : List NDArray) :
    rescaleList xs = xs.map rescale := by
  induction xs with
  | nil => rfl
  | cons x xs ih => simp [rescaleList, ih]

/-- An array passing `allIn` passes `hasShape` for the same shape. -/
theorem allIn_hasShape (lo hi : ℚ) :
    ∀ (s : List Nat) (x : NDArray), allIn lo hi s x = true →
      hasShape s x = true := by
  intro s
  induction s with
  | nil => intro x hx; cases x <;> simp_all [allIn, hasShape]
  | cons d dims ih =>
    intro x hx
    cases x with
    | scalar q => simp [allIn] at hx
    | arr xs =>
      simp only [allIn, Bool.and_eq_true, List.all_eq_true, beq_iff_eq] at hx
      simp only [hasShape, Bool.and_eq_true, List.all_eq_true, beq_iff_eq]
      exact ⟨hx.1, fun y hy => ih y (hx.2 y hy)⟩

/-- Rescaling maps entries of the 0-255 range into the -1..1 range and
preserves the shape. -/
theorem rescale_allIn :
    ∀ (s : List Nat) (x : NDArray), allIn 0 255 s x = true →
      allIn (-1) 1 s (rescale x) = true := by
  intro s
  induction s with
  | nil =>
    intro x hx
    cases x with
    | scalar q =>
      simp only [allIn, Bool.and_eq_true, decide_eq_true_eq] at hx
      simp only [rescale, allIn, Bool.and_eq_true, decide_eq_true_eq]
      constructor
      · rw [le_div_iff₀ (by norm_num : (0 : ℚ) < 127.5)]
        linarith [hx.1]
      · rw [div_le_one (by norm_num : (0 : ℚ) < 127.5)]
        linarith [hx.2]
    | arr xs => simp [allIn] at hx
  | cons d dims ih =>
    intro x hx
    cases x with
    | scalar q => simp [allIn] at hx
    | arr xs =>
      simp only [allIn, Bool.and_eq_true, List.all_eq_true, beq_iff_eq] at hx
      simp only [rescale, rescaleList_eq_map, allIn, Bool.and_eq_true,
        List.all_eq_true, beq_iff_eq, List.length_map]
      refine ⟨hx.1, fun y hy => ?_⟩
      rcases List.mem_map.mp hy with ⟨x0, hx0, rfl⟩
      exact ih x0 (hx.2 x0 hx0)

/-- Inserting a length-1 axis at position `k` commutes with `expand_dims`
on any array of matching shape, preserving the entry bounds. -/
theorem expand_dims_allIn (lo hi : ℚ) :
    ∀ (k : Nat) (s : List Nat) (x : NDArray), k ≤ s.length →
      allIn lo hi s x = true →
      ∃ y, expand_dims x k = some y ∧
        allIn lo hi (insertAt k 1 s) y = true := by
  intro k
  induction k with
  | zero =>
    intro s x _ hx
    exact ⟨.arr [x], by simp [expand_dims], by simpa [insertAt, allIn] using hx⟩
  | succ k ih =>
    intro s x hk hx
    match s with
    | [] => exact absurd hk (by simp)
    | d :: dims =>
      match x with
      | .scalar q => simp [allIn] at hx
      | .arr xs =>
        simp only [allIn, Bool.and_eq_true, List.all_eq_true, beq_iff_eq] at hx
        have hlen : k ≤ dims.length := by simpa using hk
        have hlist : ∃ ys, expandList xs k = some ys ∧
            ys.length = xs.length ∧
            ∀ y ∈ ys, allIn lo hi (insertAt k 1 dims) y = true := by
          have hmem := hx.2
          clear hx
          induction xs with
          | nil => exact ⟨[], rfl, rfl, by simp⟩
          | cons x0 xs0 ih0 =>
            rcases ih dims x0 hlen (hmem x0 (by simp)) with ⟨y0, hy0, hy0P⟩
            rcases ih0 (fun x hx => hmem x (by simp [hx])) with
              ⟨ys0, hys0, hys0L, hys0P⟩
            refine ⟨y0 :: ys0, ?_, by simp [hys0L], ?_⟩
            · simp [expandList, hy0, hys0]
            · intro y hy
              rcases List.mem_cons.mp hy with rfl | hy
              · exact hy0P
              · exact hys0P y hy
        rcases hlist with ⟨ys, hys, hysL, hysP⟩
        refine ⟨.arr ys, ?_, ?_⟩
        · simp [expand_dims, hys]
        · simp only [insertAt, allIn, Bool.and_eq_true, List.all_eq_true,
            beq_iff_eq]
          exact ⟨by rw [hysL, hx.1], hysP⟩

/-! ## C9: dataset preprocessing -/

/-- C9 (amended): for every dataset array of rank at least 3 with entries
in 0-255, `train()` rescales the entries into -1..1 and unconditionally
inserts a new axis of extent 1 at position 3.  A rank-3 `(N, H, W)` input
therefore becomes `(N, H, W, 1)`, but a rank-4 `(N, H, W, C)` input becomes
`(N, H, W, 1, C)`, not `(N, H, W, C)`. -/
theorem preprocess_inserts_axis3 (x : NDArray) (s : List Nat)
    (hs : 3 ≤ s.length) (hx : allIn 0 255 s x = true) :
    (preprocess x).map (hasShape (insertAt 3 1 s)) = some true ∧
    (preprocess x).map (allIn (-1) 1 (insertAt 3 1 s)) = some true := by
  have h1 := rescale_allIn s x hx
  rcases expand_dims_allIn (-1) 1 3 s (rescale x) hs h1 with ⟨y, hy, hyP⟩
  have : preprocess x = some y := by simpa [preprocess] using hy
  rw [this]
  exact ⟨by simp [allIn_hasShape (-1) 1 _ _ hyP], by simp [hyP]⟩

/-- C9 counterexample: a rank-4 `(1, 1, 1, 1)` dataset with pixel values in
0-255 is preprocessed to a rank-5 array of shape `(1, 1, 1, 1, 1)`, not to
an array of shape `(N, H, W, C)`: the channel axis is inserted even though
one is already present. -/
theorem preprocess_4d_counterexample :
    allIn 0 255 [1, 1, 1, 1] ds4 = true ∧
    (preprocess ds4).map (hasShape [1, 1, 1, 1]) = some false ∧
    (preprocess ds4).map (hasShape [1, 1, 1, 1, 1]) = some true := by
  refine ⟨by decide, ?_, ?_⟩ <;>
    norm_num [preprocess, ds4, rescale, rescaleList, expand_dims, expandList,
      hasShape]

/-- Closed instance of `preprocess_inserts_axis3` at a concrete rank-3
dataset of shape `(1, 1, 2)`. -/
theorem preprocess_inserts_axis3_witness :
    (preprocess ds3w).map (hasShape (insertAt 3 1 [1, 1, 2])) = some true ∧
    (preprocess ds3w).map (allIn (-1) 1 (insertAt 3 1 [1, 1, 2])) = some true :=
  preprocess_inserts_axis3 ds3w [1, 1, 2] (by decide) (by decide)

/-! ## C2: the interpolation coefficient batch is hardcoded to 32 -/

/-- C2 (code bug): `RandomWeightedAverage._merge_function` draws its
coefficient tensor with hardcoded shape `(32, 1, 1, 1)`.  For a batch of
size 2 the broadcast fails outright (the layer raises), so no per-sample
convex combination exists; and for a batch of size 1 broadcasting stretches
the inputs to 32 output samples instead of one combination per input
sample. -/
theorem merge_alpha_hardcoded_32 :
    randomWeightedAverage (fun _ => 1 / 2) [[0], [0]] [[1], [1]] = none ∧
    (randomWeightedAverage (fun _ => 1 / 2) [[0]] [[2]]).map List.length
      = some 32 := by
  constructor
  · simp [randomWeightedAverage, mergeFunction, broadcastScale]
  · decide

/-! ## C3: the gradient-penalty loss -/

/-- Sum of a list mapped to the constant 1. -/
theorem sum_map_eq_length {α : Type} (l : List α) (f : α → ℝ)
    (h : ∀ a ∈ l, f a = 1) : (l.map f).sum = l.length := by
  induction l with
  | nil => simp
  | cons a l ih =>
    simp only [List.map_cons, List.sum_cons, h a (by simp), List.length_cons]
    rw [ih (fun b hb => h b (by simp [hb]))]
    push_cast
    ring

/-- C3: the gradient-penalty term is the batch mean over samples of
`(1 - ‖g‖₂)²` with `‖g‖₂` the square root of the sum of squared gradient
entries over all non-batch dimensions; it is non-negative, and it equals
exactly 1 when the gradient vanishes identically. -/
theorem gradient_penalty_spec (grads : List (List ℝ))
    (h : 0 < grads.length) :
    gradient_penalty_loss grads =
      (grads.map
        (fun g => (1 - Real.sqrt ((g.map (fun x => x ^ 2)).sum)) ^ 2)).sum /
        grads.length ∧
    0 ≤ gradient_penalty_loss grads ∧
    ((∀ g ∈ grads, ∀ x ∈ g, x = 0) → gradient_penalty_loss grads = 1) := by
  have hform : gradient_penalty_loss grads =
      (grads.map
        (fun g => (1 - Real.sqrt ((g.map (fun x => x ^ 2)).sum)) ^ 2)).sum /
        grads.length := by
    simp [gradient_penalty_loss, kMean, List.map_map, Function.comp_def]
  refine ⟨hform, ?_, ?_⟩
  · rw [hform]
    apply div_nonneg _ (by positivity)
    apply List.sum_nonneg
    intro x hx
    rcases List.mem_map.mp hx with ⟨g, _, rfl⟩
    positivity
  · intro hzero
    rw [hform, sum_map_eq_length]
    · field_simp
    · intro g hg
      have : (g.map (fun x => x ^ 2)).sum = 0 := by
        apply List.sum_eq_zero
        intro x hx
        rcases List.mem_map.mp hx with ⟨x0, hx0, rfl⟩
        rw [hzero g hg x0 hx0]
        norm_num
      rw [this, Real.sqrt_zero]
      norm_num

/-- Closed instance of `gradient_penalty_spec` at the one-sample zero
gradient. -/
theorem gradient_penalty_spec_witness :
    0 < List.length [[(0 : ℝ), 0]] ∧
    gradient_penalty_loss [[(0 : ℝ), 0]] = 1 :=
  ⟨by decide,
   (gradient_penalty_spec [[(0 : ℝ), 0]] (by decide)).2.2 (by
      intro g hg x hx
      simp only [List.mem_singleton] at hg
      subst hg
      rcases List.mem_cons.mp hx with rfl | hx <;> simp_all)⟩

/-! ## C7: the two composite objectives -/

/-- Elementwise product against a replicated constant label. -/
theorem zipWith_mul_replicate (c : ℝ) :
    ∀ (xs : List ℝ) (n : Nat), xs.length = n →
      List.zipWith (· * ·) (List.replicate n c) xs =
        xs.map (fun s => c * s) := by
  intro xs
  induction xs with
  | nil => intro n h; subst h; simp
  | cons x xs ih =>
    intro n h
    subst h
    simp only [List.length_cons, List.replicate_succ, List.zipWith_cons_cons,
      List.map_cons, List.cons.injEq, true_and]
    exact ih xs.length rfl

/-- C7: the composite critic objective is
`1·mean(valid·critic(real)) + 1·mean(fake·critic(fake)) + 10·(gradient
penalty)` with the Wasserstein loss `mean(label · score)` and labels
`valid = -1`, `fake = +1`, and the composite generator objective is
`mean(-1 · critic(fake))`. -/
theorem composite_objectives (bs : Nat) (realScores fakeScores : List ℝ)
    (grads : List (List ℝ)) (h1 : realScores.length = bs)
    (h2 : fakeScores.length = bs) :
    criticGraphLoss bs realScores fakeScores grads =
      1 * kMean (realScores.map (fun s => (-1 : ℝ) * s))
        + 1 * kMean (fakeScores.map (fun s => (1 : ℝ) * s))
        + 10 * gradient_penalty_loss grads ∧
    generatorGraphLoss bs fakeScores =
      kMean (fakeScores.map (fun s => (-1 : ℝ) * s)) := by
  constructor
  · simp only [criticGraphLoss, wasserstein_loss,
      zipWith_mul_replicate (-1) realScores bs h1,
      zipWith_mul_replicate 1 fakeScores bs h2]
  · simp only [generatorGraphLoss, wasserstein_loss,
      zipWith_mul_replicate (-1) fakeScores bs h2]

/-- Closed instance of `composite_objectives` at a concrete batch of
size 1. -/
theorem composite_objectives_witness :
    criticGraphLoss 1 [(2 : ℝ)] [(3 : ℝ)] [[(0 : ℝ)]] =
      1 * kMean (List.map (fun s => (-1 : ℝ) * s) [(2 : ℝ)])
        + 1 * kMean (List.map (fun s => (1 : ℝ) * s) [(3 : ℝ)])
        + 10 * gradient_penalty_loss [[(0 : ℝ)]] ∧
    generatorGraphLoss 1 [(3 : ℝ)] =
      kMean (List.map (fun s => (-1 : ℝ) * s) [(3 : ℝ)]) :=
  composite_objectives 1 [(2 : ℝ)] [(3 : ℝ)] [[(0 : ℝ)]] (by decide)
    (by decide)

/-! ## Helper lemmas about the training steps -/

/-- A successful `train_on_batch` changes at most the two weight fields. -/
theorem graphTrainOnBatch_frame {Arch W : Type} {B : Backend Arch W}
    {g : CompiledGraph} {gan gan' : WGANGP Arch W} {imgs : List NDArray}
    {noise targets : List (List ℚ)}
    (h : graphTrainOnBatch B g gan imgs noise targets = some gan') :
    gan' = { gan with generatorWeights := gan'.generatorWeights,
                      criticWeights := gan'.criticWeights } := by
  unfold graphTrainOnBatch at h
  split at h
  · injection h with h
    subst h
    rfl
  · exact absurd h (by simp)

/-- A successful `train_on_batch` preserves the epoch counter. -/
theorem graphTrainOnBatch_epoch {Arch W : Type} {B : Backend Arch W}
    {g : CompiledGraph} {gan gan' : WGANGP Arch W} {imgs : List NDArray}
    {noise targets : List (List ℚ)}
    (h : graphTrainOnBatch B g gan imgs noise targets = some gan') :
    gan'.epoch = gan.epoch := by
  rw [graphTrainOnBatch_frame h]

/-- A successful `np.random.randint(0, hi, size)` call returns `size`
indices below `hi`. -/
theorem randint_some {r r' : Rng} {hi size : Nat} {idx : List Nat}
    (h : r.randint hi size = some (idx, r')) :
    idx.length = size ∧ ∀ i ∈ idx, i < hi := by
  unfold Rng.randint at h
  split at h
  · exact absurd h (by simp)
  · next hne =>
    simp only [Option.some.injEq, Prod.mk.injEq] at h
    obtain ⟨h1, -⟩ := h
    subst h1
    refine ⟨by simp, fun i hi2 => ?_⟩
    simp only [List.mem_map, List.mem_range] at hi2
    rcases hi2 with ⟨j, -, rfl⟩
    exact Nat.mod_lt _ (Nat.pos_of_ne_zero hne)

/-- Shape of a `generate_noise` batch: `batch_size` rows of length
`latent_dim`. -/
theorem generate_noise_shape {Arch W : Type} (gan : WGANGP Arch W) (bs : Nat)
    (r : Rng) :
    (gan.generate_noise bs r).1.length = bs ∧
    ∀ row ∈ (gan.generate_noise bs r).1, row.length = gan.latent_dim := by
  refine ⟨by simp [WGANGP.generate_noise], fun row hrow => ?_⟩
  simp only [WGANGP.generate_noise, List.mem_map, List.mem_range] at hrow
  rcases hrow with ⟨i, -, rfl⟩
  simp

/-- Specification of the critic loop of `train_discriminator`: `k`
iterations yield `k` recorded losses and `k` critic-step events, each on a
freshly sampled index batch of `batch_size` indices into the training set
and a noise batch of `batch_size` rows, and the epoch counter is never
touched. -/
theorem discLoop_spec {Arch W : Type} (B : Backend Arch W)
    (xt : List NDArray) (bs : Nat) (tg : List (List ℚ)) :
    ∀ (k : Nat) (gan g' : WGANGP Arch W) (r r' : Rng) (L : List (List ℚ))
      (evs : List Event),
      discLoop B xt bs tg k gan r = some (g', r', L, evs) →
      L.length = k ∧
      evs.map Event.kind = List.replicate k EventKind.criticK ∧
      (∀ idx noise, Event.criticStep idx noise ∈ evs →
          idx.length = bs ∧ (∀ i ∈ idx, i < xt.length) ∧
          noise.length = bs) ∧
      g'.epoch = gan.epoch := by
  intro k
  induction k with
  | zero =>
    intro gan g' r r' L evs h
    simp only [discLoop, Option.some.injEq, Prod.mk.injEq] at h
    obtain ⟨rfl, rfl, rfl, rfl⟩ := h
    simp
  | succ k ih =>
    intro gan g' r r' L evs h
    simp only [discLoop] at h
    cases hr : r.randint xt.length bs with
    | none => rw [hr] at h; exact absurd h (by simp)
    | some p =>
      obtain ⟨idx, r1⟩ := p
      rw [hr] at h
      simp only [Option.bind_eq_bind, Option.some_bind] at h
      cases hg : graphTrainOnBatch B gan.criticGraph gan
          (idx.map (fun i => xt.getD i (NDArray.scalar 0)))
          (gan.generate_noise bs r1).1 tg with
      | none => rw [hg] at h; exact absurd h (by simp)
      | some gan1 =>
        rw [hg] at h
        simp only [Option.some_bind] at h
        cases hd : discLoop B xt bs tg k gan1 (gan.generate_noise bs r1).2 with
        | none => rw [hd] at h; exact absurd h (by simp)
        | some q =>
          obtain ⟨ganF, rF, losses, evs0⟩ := q
          obtain ⟨ihL, ihK, ihM, ihE⟩ := ih gan1 ganF
            (gan.generate_noise bs r1).2 rF losses evs0 hd
          rw [hd] at h
          simp only [Option.some_bind, Option.some.injEq, Prod.mk.injEq] at h
          obtain ⟨rfl, rfl, rfl, rfl⟩ := h
          refine ⟨by simp [ihL], by simp [Event.kind, ihK, List.replicate_succ],
            ?_, ?_⟩
          · intro idx0 noise0 hmem
            rcases List.mem_cons.mp hmem with heq | hmem0
            · injection heq with h1 h2
              subst h1
              subst h2
              exact ⟨(randint_some hr).1, (randint_some hr).2,
                (generate_noise_shape gan bs r1).1⟩
            · exact ihM idx0 noise0 hmem0
          · rw [ihE, graphTrainOnBatch_epoch hg]

/-- Specification of `train_generator`: on success it performs exactly one
generator-graph optimizer step, records a generator-step event, and leaves
the epoch counter unchanged. -/
theorem train_generator_spec {Arch W : Type} {B : Backend Arch W}
    {gan g' : WGANGP Arch W} {bs : Nat} {r r' : Rng} {q : ℚ} {ev : Event}
    (h : gan.train_generator B bs r = some (g', r', q, ev)) :
    g'.epoch = gan.epoch ∧
    ev = Event.generatorStep (gan.generate_noise bs r).1 := by
  simp only [WGANGP.train_generator] at h
  cases hg : graphTrainOnBatch B gan.generatorGraph gan []
      (gan.generate_noise bs r).1
      [List.replicate bs (-1 : ℚ)] with
  | none => rw [hg] at h; exact absurd h (by simp)
  | some gan1 =>
    rw [hg] at h
    simp only [Option.bind_eq_bind, Option.some_bind, Option.some.injEq,
      Prod.mk.injEq] at h
    obtain ⟨rfl, rfl, -, rfl⟩ := h
    exact ⟨graphTrainOnBatch_epoch hg, rfl⟩

/-- Events whose kind is `criticK` are optimizer steps, are not epoch-run
markers and are not sampling events. -/
theorem kind_criticK_props {e : Event} (h : e.kind = EventKind.criticK) :
    e.isOptStep = true ∧ e.epochRunNum = none ∧ ∀ n, e ≠ Event.sample n := by
  cases e <;> simp_all [Event.kind, Event.isOptStep, Event.epochRunNum]

/-- Every member of a critic-step event list has kind `criticK`. -/
theorem mem_kind_of_map_replicate {evs : List Event} {n : Nat}
    (h : evs.map Event.kind = List.replicate n EventKind.criticK) :
    ∀ e ∈ evs, e.kind = EventKind.criticK := by
  intro e he
  exact List.eq_of_mem_replicate (h ▸ List.mem_map_of_mem Event.kind he)

/-- Specification of one epoch of the training loop: the epoch counter
advances by one, `n_critic` losses are recorded, the optimizer steps are
exactly `n_critic` critic steps followed by one generator step, each critic
step uses a fresh index batch into the training set and a fresh noise
batch, sampling happens exactly when `sample_interval` is nonzero and
divides the new epoch value, and exactly one epoch-run marker is emitted. -/
theorem trainEpoch_spec {Arch W : Type} {B : Backend Arch W}
    {gan g' : WGANGP Arch W} {xt : List NDArray} {bs si : Nat} {r r' : Rng}
    {L : List (List ℚ)} {evs : List Event}
    (h : gan.trainEpoch B xt bs si r = some (g', r', L, evs)) :
    g'.epoch = gan.epoch + 1 ∧
    L.length = gan.n_critic ∧
    ((evs.filter Event.isOptStep).map Event.kind =
      List.replicate gan.n_critic EventKind.criticK ++ [EventKind.genK]) ∧
    (∀ idx noise, Event.criticStep idx noise ∈ evs →
        idx.length = bs ∧ (∀ i ∈ idx, i < xt.length) ∧ noise.length = bs) ∧
    (∀ e, Event.sample e ∈ evs ↔
        si ≠ 0 ∧ (gan.epoch + 1) % si = 0 ∧ e = gan.epoch + 1) ∧
    evs.filterMap Event.epochRunNum = [gan.epoch + 1] := by
  simp only [WGANGP.trainEpoch, WGANGP.train_discriminator] at h
  cases hd : discLoop B xt bs
      [List.replicate bs (-1 : ℚ), List.replicate bs (1 : ℚ),
       List.replicate bs (0 : ℚ)]
      gan.n_critic { gan with epoch := gan.epoch + 1 } r with
  | none => rw [hd] at h; exact absurd h (by simp)
  | some p =>
    obtain ⟨gan1, r1, dL, evsD⟩ := p
    obtain ⟨hdL, hdK, hdM, hdE⟩ := discLoop_spec B xt bs _ _ _ _ _ _ _ _ hd
    have hdEpoch : gan1.epoch = gan.epoch + 1 := hdE
    have hdMemK := mem_kind_of_map_replicate hdK
    rw [hd] at h
    simp only [Option.bind_eq_bind, Option.some_bind] at h
    cases hg : gan1.train_generator B bs r1 with
    | none => rw [hg] at h; exact absurd h (by simp)
    | some q =>
      obtain ⟨gan2, r2, gq, evG⟩ := q
      obtain ⟨hgE, hgEv⟩ := train_generator_spec hg
      have hg2 : gan2.epoch = gan.epoch + 1 := by rw [hgE, hdEpoch]
      rw [hg] at h
      simp only [Option.some_bind] at h
      have hfilterD : evsD.filter Event.isOptStep = evsD :=
        List.filter_eq_self.mpr (fun e he => (kind_criticK_props (hdMemK e he)).1)
      have hfmD : evsD.filterMap Event.epochRunNum = [] := by
        rw [List.filterMap_eq_nil_iff]
        exact fun e he => (kind_criticK_props (hdMemK e he)).2.1
      have hnoSampleD : ∀ e, Event.sample e ∉ evsD := by
        intro e he
        exact (kind_criticK_props (hdMemK _ he)).2.2 e rfl
      have hmemAll : ∀ idx noise, Event.criticStep idx noise ∈ evsD →
          idx.length = bs ∧ (∀ i ∈ idx, i < xt.length) ∧ noise.length = bs :=
        hdM
      split at h
      · next hc =>
        rcases hsi : gan2.sample_images B r2 with ⟨imgs2, r3⟩
        rw [hsi] at h
        simp only [Option.pure_def, Option.some.injEq, Prod.mk.injEq] at h
        obtain ⟨rfl, rfl, rfl, rfl⟩ := h
        subst hgEv
        refine ⟨hg2, hdL, ?_, ?_, ?_, ?_⟩
        · simp [List.filter_append, List.filter_cons, Event.isOptStep,
            hfilterD, hdK, Event.kind]
        · intro idx noise hmem
          simp only [List.cons_append, List.mem_cons, List.mem_append,
            List.not_mem_nil, or_false] at hmem
          rcases hmem with h0 | h0 | h0 | h0
          · exact absurd h0 (by simp)
          · exact hmemAll idx noise h0
          · exact absurd h0 (by simp)
          · exact absurd h0 (by simp)
        · intro e
          simp only [List.cons_append, List.mem_cons, List.mem_append,
            List.not_mem_nil, or_false]
          constructor
          · rintro (h0 | h0 | h0 | h0)
            · exact absurd h0 (by simp)
            · exact absurd h0 (hnoSampleD e)
            · exact absurd h0 (by simp)
            · injection h0 with h0
              exact ⟨hc.1, by rw [← hg2]; exact hc.2, by rw [h0, hg2]⟩
          · rintro ⟨-, -, rfl⟩
            right; right; right
            rw [hg2]
        · simp [List.filterMap_append, List.filterMap_cons, Event.epochRunNum,
            hfmD]
      · next hc =>
        simp only [Option.pure_def, Option.some.injEq, Prod.mk.injEq] at h
        obtain ⟨rfl, rfl, rfl, rfl⟩ := h
        subst hgEv
        refine ⟨hg2, hdL, ?_, ?_, ?_, ?_⟩
        · simp [List.filter_append, List.filter_cons, Event.isOptStep,
            hfilterD, hdK, Event.kind]
        · intro idx noise hmem
          simp only [List.cons_append, List.mem_cons, List.mem_append,
            List.mem_singleton] at hmem
          rcases hmem with h0 | h0 | h0
          · exact absurd h0 (by simp)
          · exact hmemAll idx noise h0
          · exact absurd h0 (by simp)
        · intro e
          simp only [List.cons_append, List.mem_cons, List.mem_append,
            List.mem_singleton]
          constructor
          · rintro (h0 | h0 | h0)
            · exact absurd h0 (by simp)
            · exact absurd h0 (hnoSampleD e)
            · exact absurd h0 (by simp)
          · rintro ⟨hne, hmod, rfl⟩
            exact absurd ⟨hne, by rw [hg2]; exact hmod⟩ hc
        · simp [List.filterMap_append, List.filterMap_cons, Event.epochRunNum,
            hfmD]

/-- Specification of the epoch loop: running `E` epochs advances the epoch
counter by `E`, the epoch-run markers are exactly the consecutive epoch
numbers starting at the old value plus one, and sampling events occur
exactly at the executed epochs that `sample_interval` (nonzero) divides. -/
theorem trainLoop_spec {Arch W : Type} (B : Backend Arch W)
    (xt : List NDArray) (bs si : Nat) :
    ∀ (E : Nat) (gan g' : WGANGP Arch W) (r r' : Rng) (evs : List Event),
      trainLoop B xt bs si E gan r = some (g', r', evs) →
      g'.epoch = gan.epoch + E ∧
      evs.filterMap Event.epochRunNum = List.range' (gan.epoch + 1) E ∧
      (∀ e, Event.sample e ∈ evs ↔
          si ≠ 0 ∧ e % si = 0 ∧ gan.epoch < e ∧ e ≤ gan.epoch + E) := by
  intro E
  induction E with
  | zero =>
    intro gan g' r r' evs h
    simp only [trainLoop, Option.some.injEq, Prod.mk.injEq] at h
    obtain ⟨rfl, rfl, rfl⟩ := h
    refine ⟨by simp, by simp, fun e => ?_⟩
    simp only [List.not_mem_nil, false_iff]
    rintro ⟨-, -, hlt, hle⟩
    omega
  | succ E ih =>
    intro gan g' r r' evs h
    simp only [trainLoop] at h
    cases he : gan.trainEpoch B xt bs si r with
    | none => rw [he] at h; exact absurd h (by simp)
    | some p =>
      obtain ⟨gan1, r1, dL, evs1⟩ := p
      obtain ⟨hE1, -, -, -, hS1, hR1⟩ := trainEpoch_spec he
      rw [he] at h
      simp only [Option.bind_eq_bind, Option.some_bind] at h
      cases ht : trainLoop B xt bs si E gan1 r1 with
      | none => rw [ht] at h; exact absurd h (by simp)
      | some q =>
        obtain ⟨ganF, rF, evsR⟩ := q
        obtain ⟨ihE, ihR, ihS⟩ := ih gan1 ganF r1 rF evsR ht
        rw [ht] at h
        simp only [Option.some_bind, Option.some.injEq, Prod.mk.injEq] at h
        obtain ⟨rfl, rfl, rfl⟩ := h
        refine ⟨by omega, ?_, ?_⟩
        · rw [List.filterMap_append, hR1, ihR, hE1]
          have : List.range' (gan.epoch + 1) (E + 1) =
              (gan.epoch + 1) :: List.range' (gan.epoch + 1 + 1) E :=
            List.range'_succ _ _ _
          rw [this]
          rfl
        · intro e
          simp only [List.mem_append, hS1 e, ihS e, hE1]
          constructor
          · rintro (⟨hne, hmod, rfl⟩ | ⟨hne, hmod, hlt, hle⟩)
            · exact ⟨hne, hmod, by omega, by omega⟩
            · exact ⟨hne, hmod, by omega, by omega⟩
          · rintro ⟨hne, hmod, hlt, hle⟩
            by_cases heq : e = gan.epoch + 1
            · subst heq
              exact Or.inl ⟨hne, hmod, rfl⟩
            · exact Or.inr ⟨hne, hmod, by omega, by omega⟩

/-- Specification of a successful `train(E, ...)` run: the epoch counter
advances by exactly `E`, the epoch numbers run consecutively from the old
value plus one, and sampling happens exactly at the executed epochs that
`sample_interval` divides. -/
theorem train_run_spec {Arch W : Type} {B : Backend Arch W}
    {gan g' : WGANGP Arch W} {E bs si : Nat} {r r' : Rng} {evs : List Event}
    (h : gan.train B E bs si r = some (g', r', evs)) :
    g'.epoch = gan.epoch + E ∧
    evs.filterMap Event.epochRunNum = List.range' (gan.epoch + 1) E ∧
    (∀ e, Event.sample e ∈ evs ↔
        si ≠ 0 ∧ e % si = 0 ∧ gan.epoch < e ∧ e ≤ gan.epoch + E) := by
  simp only [WGANGP.train] at h
  cases hp : preprocess gan.dataset with
  | none => rw [hp] at h; exact absurd h (by simp)
  | some x =>
    rw [hp] at h
    simp only [Option.bind_eq_bind, Option.some_bind] at h
    exact trainLoop_spec B x.toRows bs si E gan g' r r' evs h

/-! ## C4, C5, C6: the training loop -/

/-- C4: in every epoch of `train()`, exactly `n_critic` critic optimizer
steps are performed, each on a freshly sampled batch of `batch_size`
indices into the training set (with replacement) and a fresh noise batch,
followed by exactly one generator optimizer step, and the recorded critic
loss list has length exactly `n_critic`. -/
theorem critic_steps_per_epoch {Arch W : Type} (B : Backend Arch W)
    (gan g' : WGANGP Arch W) (xt : List NDArray) (bs si : Nat) (r r' : Rng)
    (L : List (List ℚ)) (evs : List Event) (_hn : 1 ≤ gan.n_critic)
    (h : gan.trainEpoch B xt bs si r = some (g', r', L, evs)) :
    L.length = gan.n_critic ∧
    ((evs.filter Event.isOptStep).map Event.kind =
      List.replicate gan.n_critic EventKind.criticK ++ [EventKind.genK]) ∧
    (∀ idx noise, Event.criticStep idx noise ∈ evs →
        idx.length = bs ∧ (∀ i ∈ idx, i < xt.length) ∧
        noise.length = bs) := by
  obtain ⟨-, h1, h2, h3, -, -⟩ := trainEpoch_spec h
  exact ⟨h1, h2, h3⟩

/-- C5: a successful `train(epochs=E, batch_size, sample_interval)` run
leaves the epoch counter at exactly its previous value plus `E`, for every
`sample_interval`. -/
theorem train_epoch_increment {Arch W : Type} (B : Backend Arch W)
    (gan g' : WGANGP Arch W) (epochs batch_size sample_interval : Nat)
    (r r' : Rng) (evs : List Event)
    (h : gan.train B epochs batch_size sample_interval r =
      some (g', r', evs)) :
    g'.epoch = gan.epoch + epochs :=
  (train_run_spec h).1

/-- C6: during `train()`, the sampling collaborator is invoked at epoch `e`
if and only if `sample_interval > 0`, `e` is divisible by
`sample_interval`, and `e` is one of the executed epoch values. -/
theorem sampling_interval_iff {Arch W : Type} (B : Backend Arch W)
    (gan g' : WGANGP Arch W) (epochs batch_size sample_interval : Nat)
    (r r' : Rng) (evs : List Event)
    (h : gan.train B epochs batch_size sample_interval r =
      some (g', r', evs)) :
    ∀ e, Event.sample e ∈ evs ↔
      0 < sample_interval ∧ e % sample_interval = 0 ∧
      gan.epoch < e ∧ e ≤ gan.epoch + epochs := by
  intro e
  rw [(train_run_spec h).2.2 e, Nat.pos_iff_ne_zero]

/-! ## C1: save/load round trip and resume -/

/-- C1: `save()` followed by the static `load()` reconstructs a trainer
whose generator output on any fixed latent input equals the saved
generator's output (`predict_on_batch` agrees, hence `generate_batch`
agrees draw for draw), whose epoch counter is the stored value, and whose
subsequent `train(epochs=E)` run numbers its epochs consecutively starting
at the stored epoch plus one, not at zero. -/
theorem save_load_roundtrip_resume {Arch W : Type} (B : Backend Arch W)
    (gan : WGANGP Arch W) :
    ((WGANGP.load B gan.save).predict_on_batch B =
      gan.predict_on_batch B) ∧
    (∀ bs r, (WGANGP.load B gan.save).generate_batch B bs r =
      gan.generate_batch B bs r) ∧
    (WGANGP.load B gan.save).epoch = gan.epoch ∧
    (∀ E bs si r (g' : WGANGP Arch W) r' evs, 1 ≤ E →
      (WGANGP.load B gan.save).train B E bs si r = some (g', r', evs) →
      (evs.filterMap Event.epochRunNum).head? = some (gan.epoch + 1) ∧
      evs.filterMap Event.epochRunNum = List.range' (gan.epoch + 1) E) := by
  refine ⟨rfl, fun bs r => rfl, rfl, ?_⟩
  intro E bs si r g' r' evs hE h
  have hload : (WGANGP.load B gan.save).epoch = gan.epoch := rfl
  have hspec := (train_run_spec h).2.1
  rw [hload] at hspec
  refine ⟨?_, hspec⟩
  cases E with
  | zero => omega
  | succ E0 =>
    rw [hspec, List.range'_succ]
    rfl

/-! ## C8: frame effects of the two optimizer steps -/

/-- C8: through the critic graph built by `build_computational_graphs`, a
`train_on_batch` step can change only the critic's weights — every other
field, including all generator parameters, is unchanged — and through the
generator graph only the generator's weights; the generator is never in
the critic graph's trainable set, the critic never in the generator
graph's, while the generator graph always trains the generator and the
critic graph trains the critic whenever its flag was set (as it is in
`__init__`, where both flags start `True`). -/
theorem step_frame_effects (f0 : Flags) (ld : Nat) :
    (∀ (Arch W : Type) (B : Backend Arch W) (gan gan' : WGANGP Arch W)
        (imgs : List NDArray) (noise targets : List (List ℚ)),
        graphTrainOnBatch B (build_computational_graphs f0 ld).2.1 gan imgs
            noise targets = some gan' →
        gan' = { gan with criticWeights := gan'.criticWeights }) ∧
    (∀ (Arch W : Type) (B : Backend Arch W) (gan gan' : WGANGP Arch W)
        (imgs : List NDArray) (noise targets : List (List ℚ)),
        graphTrainOnBatch B (build_computational_graphs f0 ld).2.2 gan imgs
            noise targets = some gan' →
        gan' = { gan with generatorWeights := gan'.generatorWeights }) ∧
    Net.generator ∉ (build_computational_graphs f0 ld).2.1.trainableNets ∧
    Net.critic ∉ (build_computational_graphs f0 ld).2.2.trainableNets ∧
    Net.generator ∈ (build_computational_graphs f0 ld).2.2.trainableNets ∧
    (f0.critic_trainable = true →
      Net.critic ∈ (build_computational_graphs f0 ld).2.1.trainableNets) := by
  obtain ⟨gt, ct⟩ := f0
  have hgen : Net.generator ∉
      (build_computational_graphs ⟨gt, ct⟩ ld).2.1.trainableNets := by
    cases ct <;>
      simp [build_computational_graphs, build_critic_graph,
        build_generator_graph, trainableOf]
  have hcrit : Net.critic ∉
      (build_computational_graphs ⟨gt, ct⟩ ld).2.2.trainableNets := by
    simp [build_computational_graphs, build_critic_graph,
      build_generator_graph, trainableOf]
  refine ⟨?_, ?_, hgen, hcrit, ?_, ?_⟩
  · intro Arch W B gan gan' imgs noise targets h
    unfold graphTrainOnBatch at h
    split at h
    · simp only [Option.some.injEq] at h
      subst h
      rfl
    · exact absurd h (by simp)
  · intro Arch W B gan gan' imgs noise targets h
    unfold graphTrainOnBatch at h
    split at h
    · simp only [Option.some.injEq] at h
      subst h
      rfl
    · exact absurd h (by simp)
  · simp [build_computational_graphs, build_critic_graph,
      build_generator_graph, trainableOf]
  · intro hct
    subst hct
    simp [build_computational_graphs, build_critic_graph,
      build_generator_graph, trainableOf]

/-! ## C10: the hardcoded critic-graph noise input -/

/-- C10: for any configured `latent_dim`, the critic graph's noise input is
a fixed-length vector of length 100 (hardcoded, independent of
`latent_dim`), while the generator graph's noise input and the batches
produced by `generate_noise` have width `latent_dim`; consequently a
critic-update step through the critic graph on a nonempty noise batch
succeeds exactly when `latent_dim = 100`. -/
theorem critic_graph_noise_dim_hardcoded {Arch W : Type} (B : Backend Arch W)
    (img_shape : List Nat) (ld nc : Nat) (ds : NDArray) (mn md : String)
    (gan : WGANGP Arch W) (hgan : gan = WGANGP.init B img_shape ld nc ds mn md) :
    gan.criticGraph.noiseInputDim = 100 ∧
    gan.generatorGraph.noiseInputDim = ld ∧
    (∀ bs r, (gan.generate_noise bs r).1.length = bs ∧
      ∀ row ∈ (gan.generate_noise bs r).1, row.length = ld) ∧
    (∀ bs r imgs targets, 1 ≤ bs →
      ((graphTrainOnBatch B gan.criticGraph gan imgs
          (gan.generate_noise bs r).1 targets).isSome ↔ ld = 100)) := by
  have hld : gan.latent_dim = ld := by
    rw [hgan]
    simp [WGANGP.init]
  have hcg : gan.criticGraph.noiseInputDim = 100 := by
    rw [hgan]
    simp [WGANGP.init, build_computational_graphs, build_critic_graph]
  have hgg : gan.generatorGraph.noiseInputDim = ld := by
    rw [hgan]
    simp [WGANGP.init, build_computational_graphs, build_critic_graph,
      build_generator_graph]
  refine ⟨hcg, hgg, ?_, ?_⟩
  · intro bs r
    obtain ⟨h1, h2⟩ := generate_noise_shape gan bs r
    exact ⟨h1, fun row hrow => by rw [h2 row hrow, hld]⟩
  · intro bs r imgs targets hbs
    obtain ⟨h1, h2⟩ := generate_noise_shape gan bs r
    unfold graphTrainOnBatch
    split
    · next hck =>
      refine ⟨fun _ => ?_, fun _ => rfl⟩
      have hne : (gan.generate_noise bs r).1 ≠ [] := by
        intro hnil
        rw [hnil] at h1
        simp at h1
        omega
      obtain ⟨row, hrow⟩ := List.exists_mem_of_ne_nil _ hne
      have hrl := List.all_eq_true.mp hck row hrow
      rw [beq_iff_eq] at hrl
      rw [← hld, ← h2 row hrow, hrl, hcg]
    · next hck =>
      refine ⟨fun hfalse => absurd hfalse (by simp),
        fun hld100 => absurd ?_ hck⟩
      rw [List.all_eq_true]
      intro row hrow
      rw [beq_iff_eq, h2 row hrow, hld, hld100, hcg]

/-! ## Closed witness instances for the trainer theorems -/

/-- Closed instance of `critic_steps_per_epoch`: the default trainer over
the trivial backend runs one epoch with batch size 0 and records exactly
`n_critic = 5` losses, with five critic steps followed by one generator
step. -/
theorem critic_steps_per_epoch_witness :
    ([([] : List ℚ), [], [], [], []]).length = gan0.n_critic ∧
    ((evs1.filter Event.isOptStep).map Event.kind =
      List.replicate gan0.n_critic EventKind.criticK ++ [EventKind.genK]) :=
  let s := critic_steps_per_epoch trivialBackend gan0
    { gan0 with epoch := 1 } [NDArray.scalar 0] 0 0 rng0 rng0
    [([] : List ℚ), [], [], [], []] evs1 (by decide) (by rfl)
  ⟨s.1, s.2.1⟩

/-- Closed instance of `train_epoch_increment`: training the default
trainer for two epochs leaves the epoch counter at 2. -/
theorem train_epoch_increment_witness :
    ({ gan0 with epoch := 2 } : WGANGP Nat Nat).epoch = gan0.epoch + 2 :=
  train_epoch_increment trivialBackend gan0 { gan0 with epoch := 2 } 2 0 3
    rng0 rng0 (evs1 ++ evs2) (by rfl)

/-- Closed instance of `sampling_interval_iff`: with `sample_interval = 1`
a one-epoch run samples at epoch 1 and nowhere else. -/
theorem sampling_interval_iff_witness :
    Event.sample 1 ∈ evs6 ∧ Event.sample 2 ∉ evs6 := by
  have h := sampling_interval_iff trivialBackend gan0 { gan0 with epoch := 1 }
    1 0 1 rng0 { rng0 with pos := 2500 } evs6 (by rfl)
  constructor
  · exact (h 1).mpr (by decide)
  · intro hmem
    exact absurd ((h 2).mp hmem) (by decide)

/-- Closed instance of `save_load_roundtrip_resume`: saving and reloading
the default trainer reproduces the generator forward function, and a
subsequent one-epoch run numbers its first epoch 1 = stored epoch + 1. -/
theorem save_load_roundtrip_resume_witness :
    ((WGANGP.load trivialBackend gan0.save).predict_on_batch trivialBackend =
      gan0.predict_on_batch trivialBackend) ∧
    (List.filterMap Event.epochRunNum evs1).head? = some (gan0.epoch + 1) := by
  have h := save_load_roundtrip_resume trivialBackend gan0
  refine ⟨h.1, ?_⟩
  exact (h.2.2.2 1 0 0 rng0
    { WGANGP.load trivialBackend gan0.save with epoch := 1 } rng0 evs1
    (by decide) (by rfl)).1

/-- Closed instance of `step_frame_effects`: a critic-graph step on the
default trainer leaves everything but the critic weights unchanged, and
the generator is not trainable in the critic graph. -/
theorem step_frame_effects_witness :
    (gan0 = { gan0 with criticWeights := gan0.criticWeights }) ∧
    Net.generator ∉
      (build_computational_graphs ⟨true, true⟩ 100).2.1.trainableNets :=
  ⟨(step_frame_effects ⟨true, true⟩ 100).1 Nat Nat trivialBackend gan0 gan0
      [] [] [] (by rfl),
   (step_frame_effects ⟨true, true⟩ 100).2.2.1⟩

/-- Closed instance of `critic_graph_noise_dim_hardcoded`: with
`latent_dim = 5` the critic graph still demands 100-dimensional noise, and
a critic step on a nonempty noise batch fails. -/
theorem critic_graph_noise_dim_hardcoded_witness :
    gan5.criticGraph.noiseInputDim = 100 ∧
    ¬ ((graphTrainOnBatch trivialBackend gan5.criticGraph gan5 []
        ((gan5.generate_noise 1 rng0).1) []).isSome = true) := by
  have h := critic_graph_noise_dim_hardcoded trivialBackend [28, 28, 1] 5 5
    trivialBackend.load_data "wgan_mnist" "models" gan5 (by rfl)
  refine ⟨h.1, fun hs => ?_⟩
  exact absurd ((h.2.2.2 1 rng0 [] [] (by decide)).mp hs) (by decide)

end WganGp
